import Mathlib

/-!
Shallow embedding of the signal-evaluation and simulation engine of
`signaltest.py` (single-asset backtesting engine).

Real-valued data (prices, indicator values, cash) is modelled over `ℚ`.
A pandas column entry that may be NaN (an indicator during its warm-up
prefix) is modelled as `Option ℚ`, with `none` standing for NaN; the
pandas comparison semantics (any comparison with NaN is `False`) is
captured by `nanGT` / `nanLT` below.  Python's float floor-division
`cash // close_price` on non-negative operands is modelled by `Int.floor`
of the exact rational quotient.  The Python strings `'Buy'` / `'Sell'`
held in `last_action` (initially `None`) become `Option Action`.
A Python exception escaping `run_simulation` (as happens when
`first_valid_index()` returns `None` and `max(None, ...)` raises) is
modelled by the embedded `run_simulation` returning `none`.
-/

namespace SignalTest

/-- One row of the dataframe after `calculate_indicators`: the close price
together with the indicator columns read by the engine. Indicator columns
may be NaN (`none`) during their warm-up prefix. -/
structure Bar where
  Close : ℚ
  PLUS_DI : Option ℚ
  MINUS_DI : Option ℚ
  MACD : Option ℚ
  MACDSignal : Option ℚ
deriving DecidableEq

instance : Inhabited Bar := ⟨⟨0, none, none, none, none⟩⟩

/-- Pandas elementwise `>` on possibly-NaN values: `True` only when both
operands are defined and the strict inequality holds. -/
def nanGT (a b : Option ℚ) : Bool :=
  match a, b with
  | some x, some y => decide (x > y)
  | _, _ => false

/-- Pandas elementwise `<` on possibly-NaN values. -/
def nanLT (a b : Option ℚ) : Bool :=
  match a, b with
  | some x, some y => decide (x < y)
  | _, _ => false

/-- Line 28 of `signaltest.py`:
`data['Buy_Condition'] = (data['PLUS_DI'] > data['MINUS_DI']) & (data['MACD'] > data['MACDSignal'])`,
evaluated at one bar. -/
def Buy_Condition (b : Bar) : Bool :=
  nanGT b.PLUS_DI b.MINUS_DI && nanGT b.MACD b.MACDSignal

/-- Line 29 of `signaltest.py`:
`data['Sell_Condition'] = (data['MINUS_DI'] > data['PLUS_DI']) & (data['MACD'] < data['MACDSignal'])`,
evaluated at one bar. -/
def Sell_Condition (b : Bar) : Bool :=
  nanGT b.MINUS_DI b.PLUS_DI && nanLT b.MACD b.MACDSignal

/-- The action field of a transaction row (`'Buy'` / `'Sell'`). -/
inductive Action
  | Buy
  | Sell
deriving DecidableEq

/-- One row appended to `transactions`:
`[data.index[i], action, close_price, quantity, cash, portfolio_value]`.
The date is the integer position of the bar in the series. -/
structure Transaction where
  date : ℕ
  action : Action
  price : ℚ
  quantity : ℚ
  cash : ℚ
  portfolio_value : ℚ
deriving DecidableEq

/-- The mutable loop state of `run_simulation` (lines 32–38), together with
the per-bar `Portfolio_Value` column written at line 67. -/
structure SimState where
  cash : ℚ
  stock_quantity : ℚ
  transactions : List Transaction
  last_action : Option Action
  total_trades : ℕ
  successful_trades : ℕ
  last_buy_price : ℚ
  portfolio_values : List ℚ
deriving DecidableEq

/-- Initial loop state of `run_simulation` for a given `initial_cash`. -/
def initState (initial_cash : ℚ) : SimState :=
  { cash := initial_cash
    stock_quantity := 0
    transactions := []
    last_action := none
    total_trades := 0
    successful_trades := 0
    last_buy_price := 0
    portfolio_values := [] }

/-- The `if`/`elif` trading decision of one loop iteration
(lines 48–65 of `signaltest.py`) at integer bar position `i`. -/
def tradeStep (i : ℕ) (b : Bar) (s : SimState) : SimState :=
  if Buy_Condition b = true ∧ 0 < s.cash ∧ s.last_action ≠ some Action.Buy then
    let q : ℚ := (⌊s.cash / b.Close⌋ : ℚ)
    let c : ℚ := s.cash - q * b.Close
    { s with
      cash := c
      stock_quantity := q
      transactions := s.transactions ++
        [{ date := i, action := Action.Buy, price := b.Close, quantity := q,
           cash := c, portfolio_value := c + q * b.Close }]
      last_action := some Action.Buy
      last_buy_price := b.Close }
  else if Sell_Condition b = true ∧ 0 < s.stock_quantity ∧ s.last_action ≠ some Action.Sell then
    let c : ℚ := s.cash + s.stock_quantity * b.Close
    { s with
      cash := c
      stock_quantity := 0
      transactions := s.transactions ++
        [{ date := i, action := Action.Sell, price := b.Close, quantity := 0,
           cash := c, portfolio_value := c }]
      last_action := some Action.Sell
      total_trades := s.total_trades + 1
      successful_trades :=
        if b.Close > s.last_buy_price then s.successful_trades + 1 else s.successful_trades }
  else s

/-- One full loop iteration of `run_simulation` (lines 45–67): the trading
decision followed by the unconditional `Portfolio_Value` write of line 67. -/
def stepBar (i : ℕ) (b : Bar) (s : SimState) : SimState :=
  let t := tradeStep i b s
  { t with portfolio_values := t.portfolio_values ++ [t.cash + t.stock_quantity * b.Close] }

/-- The `for i in range(start_index, len(data))` fold, driven by the list of
(integer position, bar) pairs still to process. -/
def simLoop (s : SimState) (l : List (ℕ × Bar)) : SimState :=
  l.foldl (fun st p => stepBar p.1 p.2 st) s

/-- Pandas `Series.first_valid_index()` restricted to one column `f`: the
first integer position whose entry is not NaN, `none` if the whole column
is NaN. -/
def first_valid (f : Bar → Option ℚ) : List Bar → Option ℕ
  | [] => none
  | b :: rest => if (f b).isSome then some 0 else (first_valid f rest).map (· + 1)

/-- Lines 40–43 of `signaltest.py`:
`start_index = max(data['MINUS_DI'].first_valid_index(), data['PLUS_DI'].first_valid_index())`
converted to an integer position.  When either column has no valid entry,
Python's `max` receives `None` and raises; this is modelled as `none`. -/
def start_index (bars : List Bar) : Option ℕ :=
  match first_valid Bar.MINUS_DI bars, first_valid Bar.PLUS_DI bars with
  | some i, some j => some (max i j)
  | _, _ => none

/-- The triple returned by `run_simulation` (line 69): the transaction
journal and the two trade counters. -/
structure RunResult where
  transactions : List Transaction
  total_trades : ℕ
  successful_trades : ℕ
deriving DecidableEq

/-- `run_simulation(data, initial_cash)` (lines 31–69).  `none` models the
exception raised when the start-index lookup fails. -/
def run_simulation (bars : List Bar) (initial_cash : ℚ) : Option RunResult :=
  match start_index bars with
  | none => none
  | some k =>
    let final := simLoop (initState initial_cash) (List.enumFrom k (bars.drop k))
    some { transactions := final.transactions
           total_trades := final.total_trades
           successful_trades := final.successful_trades }

/-- A one-bar series on which the buy condition fires while
`floor(cash/price) = 0` for `initial_cash = 50`: close 100, `PLUS_DI = 2 >
MINUS_DI = 1`, `MACD = 1 > MACDSignal = 0`. -/
def barsNoAfford : List Bar :=
  [{ Close := 100, PLUS_DI := some 2, MINUS_DI := some 1, MACD := some 1, MACDSignal := some 0 }]

/-- A two-bar series: the buy condition fires at bar 0 (close 100) and the
sell condition at bar 1 (close 110). -/
def barsBuySell : List Bar :=
  [{ Close := 100, PLUS_DI := some 2, MINUS_DI := some 1, MACD := some 1, MACDSignal := some 0 },
   { Close := 110, PLUS_DI := some 1, MINUS_DI := some 2, MACD := some 0, MACDSignal := some 1 }]

/-- A two-bar series whose directional indicators are defined from bar 0
but whose MACD columns only become defined at bar 1 (a longer MACD
warm-up, as with the default talib parameters where the MACD signal line
warms up after the 15-period directional indicators). -/
def barsMACDLater : List Bar :=
  [{ Close := 100, PLUS_DI := some 2, MINUS_DI := some 1, MACD := none, MACDSignal := none },
   { Close := 100, PLUS_DI := some 2, MINUS_DI := some 1, MACD := some 1, MACDSignal := some 0 }]

/-- A one-bar series shorter than every indicator's warm-up window: all
indicator columns are entirely NaN. -/
def barsAllNaN : List Bar :=
  [{ Close := 100, PLUS_DI := none, MINUS_DI := none, MACD := none, MACDSignal := none }]

/-- A bar at which only the sell condition holds (close 110). -/
def barSell : Bar :=
  { Close := 110, PLUS_DI := some 1, MINUS_DI := some 2, MACD := some 0, MACDSignal := some 1 }

/-- The loop state after a full-cash buy of 10 shares at price 100 from
initial cash 1000. -/
def longState : SimState :=
  { cash := 0
    stock_quantity := 10
    transactions := [{ date := 0, action := Action.Buy, price := 100, quantity := 10,
                       cash := 0, portfolio_value := 1000 }]
    last_action := some Action.Buy
    total_trades := 0
    successful_trades := 0
    last_buy_price := 100
    portfolio_values := [1000] }

/-- No two adjacent transactions of a journal carry the same action. -/
def noRepeatedSide : List Transaction → Bool
  | [] => true
  | [_] => true
  | t :: u :: rest => decide (t.action ≠ u.action) && noRepeatedSide (u :: rest)

instance : Inhabited Transaction :=
  ⟨{ date := 0, action := Action.Buy, price := 0, quantity := 0, cash := 0,
     portfolio_value := 0 }⟩

/-- The run result produced on `barsBuySell` with initial cash 1000: one
full-cash buy of 10 shares at 100, then a full sell at 110. -/
def resultBuySell : RunResult :=
  { transactions :=
      [{ date := 0, action := Action.Buy, price := 100, quantity := 10,
         cash := 0, portfolio_value := 1000 },
       { date := 1, action := Action.Sell, price := 110, quantity := 0,
         cash := 1100, portfolio_value := 1100 }]
    total_trades := 1
    successful_trades := 1 }

/-- A two-bar series whose plus-DI column is defined from bar 0 but whose
minus-DI column only becomes defined at bar 1, so the start position is
`max 1 0 = 1`. -/
def barsDIStagger : List Bar :=
  [{ Close := 100, PLUS_DI := some 1, MINUS_DI := none, MACD := none, MACDSignal := none },
   { Close := 100, PLUS_DI := some 1, MINUS_DI := some 1, MACD := some 0, MACDSignal := some 0 }]

/-! ## Signal evaluator: definedness propagation and mutual exclusivity -/

lemma nanGT_asymm (a b : Option ℚ) (h : nanGT a b = true) : nanGT b a = false := by
  cases a <;> cases b <;> simp_all [nanGT]
  exact le_of_lt h

lemma buy_not_sell (b : Bar) (h : Buy_Condition b = true) : Sell_Condition b = false := by
  unfold Buy_Condition at h
  rw [Bool.and_eq_true] at h
  unfold Sell_Condition
  rw [nanGT_asymm _ _ h.1]
  exact Bool.false_and _

lemma sell_not_buy (b : Bar) (h : Sell_Condition b = true) : Buy_Condition b = false := by
  unfold Sell_Condition at h
  rw [Bool.and_eq_true] at h
  unfold Buy_Condition
  rw [nanGT_asymm _ _ h.1]
  exact Bool.false_and _

/-- C5: on a bar whose plus-DI, minus-DI, MACD and MACD-signal values are
all defined, the buy condition is `plusDI > minusDI AND MACD > MACDSignal`
and the sell condition is `minusDI > plusDI AND MACD < MACDSignal`; on a
bar where any of those four inputs is NaN, both conditions are false. -/
theorem claim_C5 (b : Bar) :
    (∀ p m x y, b.PLUS_DI = some p → b.MINUS_DI = some m → b.MACD = some x →
      b.MACDSignal = some y →
      Buy_Condition b = (decide (p > m) && decide (x > y)) ∧
      Sell_Condition b = (decide (m > p) && decide (x < y))) ∧
    ((b.PLUS_DI = none ∨ b.MINUS_DI = none ∨ b.MACD = none ∨ b.MACDSignal = none) →
      Buy_Condition b = false ∧ Sell_Condition b = false) := by
  constructor
  · intro p m x y hp hm hx hy
    constructor <;> simp [Buy_Condition, Sell_Condition, nanGT, nanLT, hp, hm, hx, hy]
  · rcases b with ⟨c, p, m, x, y⟩
    intro h
    cases p <;> cases m <;> cases x <;> cases y <;>
      simp_all [Buy_Condition, Sell_Condition, nanGT, nanLT]

/-- C5 witness: the two parts of `claim_C5` applied at concrete bars. -/
theorem claim_C5_witness :
    (Buy_Condition ⟨100, some 2, some 1, some 1, some 0⟩ =
      (decide ((2:ℚ) > 1) && decide ((1:ℚ) > 0))) ∧
    (Buy_Condition ⟨100, none, some 1, some 1, some 0⟩ = false) := by
  constructor
  · exact ((claim_C5 _).1 2 1 1 0 rfl rfl rfl rfl).1
  · exact ((claim_C5 _).2 (Or.inl rfl)).1

/-- C9: at every bar, defined or not, the buy and sell conditions are never
simultaneously true. -/
theorem claim_C9 (b : Bar) : (Buy_Condition b && Sell_Condition b) = false := by
  cases hb : Buy_Condition b
  · exact Bool.false_and _
  · rw [buy_not_sell b hb]
    exact Bool.and_false _

/-- C1 (evaluation at the failing input): with initial cash 50 and a single
bar of close price 100 whose buy condition fires, the engine nevertheless
records a quantity-0 Buy transaction and moves `last_action` to `Buy`
(and `last_buy_price` to 100), instead of declining to transact and
leaving the state unchanged. -/
theorem claim_C1_eval :
    run_simulation barsNoAfford 50 =
      some { transactions := [{ date := 0, action := Action.Buy, price := 100, quantity := 0,
                                cash := 50, portfolio_value := 50 }],
             total_trades := 0, successful_trades := 0 } ∧
    (simLoop (initState 50) (List.enumFrom 0 barsNoAfford)).last_action = some Action.Buy ∧
    (simLoop (initState 50) (List.enumFrom 0 barsNoAfford)).last_buy_price = 100 := by
  refine ⟨?_, ?_, ?_⟩ <;> with_unfolding_all decide

/-- C2 counterexample: on `barsMACDLater` the loop starts at index 0 (the
maximum of the two directional-indicator first-valid indices), yet the MACD
value at bar 0 is undefined; the first bar where all four evaluator inputs
are defined is bar 1, not bar 0. -/
theorem claim_C2_counterexample :
    start_index barsMACDLater = some 0 ∧
    (barsMACDLater.getD 0 default).MACD = none ∧
    ((barsMACDLater.getD 1 default).PLUS_DI.isSome ∧
      (barsMACDLater.getD 1 default).MINUS_DI.isSome ∧
      (barsMACDLater.getD 1 default).MACD.isSome ∧
      (barsMACDLater.getD 1 default).MACDSignal.isSome) := by
  refine ⟨?_, ?_, ?_⟩ <;> with_unfolding_all decide

/-- C3 counterexample: on a series with no valid indicator bar at all the
engine does not return an empty `RunResult`; the start-index lookup fails
(`max(None, None)` raises in the source, modelled as `none`). -/
theorem claim_C3_counterexample :
    run_simulation barsAllNaN 50 = none ∧
    run_simulation barsAllNaN 50 ≠
      some { transactions := [], total_trades := 0, successful_trades := 0 } := by
  refine ⟨?_, ?_⟩ <;> with_unfolding_all decide

/-! ## Ledger accounting on buy and sell triggers -/

/-- C7: whenever the buy branch fires (buy condition true, positive cash,
last action not Buy) at a bar with close price `P` and cash `C`, the bar
step sets `quantity = floor(C / P)`, `cash = C - quantity * P`, appends the
transaction `{Buy, P, quantity, cash, cash + quantity * P}`, and sets
`last_buy_price = P` and `last_action = Buy`. -/
theorem claim_C7 (i : ℕ) (b : Bar) (s : SimState)
    (hb : Buy_Condition b = true) (hc : 0 < s.cash)
    (hl : s.last_action ≠ some Action.Buy) :
    (stepBar i b s).stock_quantity = (⌊s.cash / b.Close⌋ : ℚ) ∧
    (stepBar i b s).cash = s.cash - (⌊s.cash / b.Close⌋ : ℚ) * b.Close ∧
    (stepBar i b s).transactions = s.transactions ++
      [{ date := i, action := Action.Buy, price := b.Close,
         quantity := (⌊s.cash / b.Close⌋ : ℚ),
         cash := s.cash - (⌊s.cash / b.Close⌋ : ℚ) * b.Close,
         portfolio_value := s.cash - (⌊s.cash / b.Close⌋ : ℚ) * b.Close +
           (⌊s.cash / b.Close⌋ : ℚ) * b.Close }] ∧
    (stepBar i b s).last_buy_price = b.Close ∧
    (stepBar i b s).last_action = some Action.Buy := by
  have ht : tradeStep i b s =
      { s with
        cash := s.cash - (⌊s.cash / b.Close⌋ : ℚ) * b.Close
        stock_quantity := (⌊s.cash / b.Close⌋ : ℚ)
        transactions := s.transactions ++
          [{ date := i, action := Action.Buy, price := b.Close,
             quantity := (⌊s.cash / b.Close⌋ : ℚ),
             cash := s.cash - (⌊s.cash / b.Close⌋ : ℚ) * b.Close,
             portfolio_value := s.cash - (⌊s.cash / b.Close⌋ : ℚ) * b.Close +
               (⌊s.cash / b.Close⌋ : ℚ) * b.Close }]
        last_action := some Action.Buy
        last_buy_price := b.Close } := by
    unfold tradeStep
    exact if_pos ⟨hb, hc, hl⟩
  simp only [stepBar]
  rw [ht]
  exact ⟨rfl, rfl, rfl, rfl, rfl⟩

/-- C7 witness: Example 1 of the specification — constant price 100, cash
1000, buy condition true at the bar gives quantity 10, cash 0, last action
Buy. -/
theorem claim_C7_witness :
    (stepBar 0 ⟨100, some 2, some 1, some 1, some 0⟩ (initState 1000)).stock_quantity = 10 ∧
    (stepBar 0 ⟨100, some 2, some 1, some 1, some 0⟩ (initState 1000)).cash = 0 ∧
    (stepBar 0 ⟨100, some 2, some 1, some 1, some 0⟩ (initState 1000)).last_action =
      some Action.Buy := by
  have h := claim_C7 0 ⟨100, some 2, some 1, some 1, some 0⟩ (initState 1000)
    (by with_unfolding_all decide) (by with_unfolding_all decide)
    (by with_unfolding_all decide)
  refine ⟨?_, ?_, h.2.2.2.2⟩
  · rw [h.1]
    with_unfolding_all decide
  · rw [h.2.1]
    with_unfolding_all decide

/-- C8: whenever the sell branch fires (sell condition true, positive held
quantity, last action not Sell) at a bar with close price `P` and held
quantity `Q`, the bar step sets `cash = cash + Q * P` and `quantity = 0`,
appends the transaction `{Sell, P, 0, cash, cash}`, sets
`last_action = Sell`, increments `total_trades`, and increments
`successful_trades` exactly when `P > last_buy_price`. -/
theorem claim_C8 (i : ℕ) (b : Bar) (s : SimState)
    (hs : Sell_Condition b = true) (hq : 0 < s.stock_quantity)
    (hl : s.last_action ≠ some Action.Sell) :
    (stepBar i b s).cash = s.cash + s.stock_quantity * b.Close ∧
    (stepBar i b s).stock_quantity = 0 ∧
    (stepBar i b s).transactions = s.transactions ++
      [{ date := i, action := Action.Sell, price := b.Close, quantity := 0,
         cash := s.cash + s.stock_quantity * b.Close,
         portfolio_value := s.cash + s.stock_quantity * b.Close }] ∧
    (stepBar i b s).last_action = some Action.Sell ∧
    (stepBar i b s).total_trades = s.total_trades + 1 ∧
    (stepBar i b s).successful_trades =
      (if b.Close > s.last_buy_price then s.successful_trades + 1
       else s.successful_trades) := by
  have hnb : ¬(Buy_Condition b = true ∧ 0 < s.cash ∧ s.last_action ≠ some Action.Buy) := by
    intro hcon
    rw [sell_not_buy b hs] at hcon
    exact Bool.false_ne_true hcon.1
  have ht : tradeStep i b s =
      { s with
        cash := s.cash + s.stock_quantity * b.Close
        stock_quantity := 0
        transactions := s.transactions ++
          [{ date := i, action := Action.Sell, price := b.Close, quantity := 0,
             cash := s.cash + s.stock_quantity * b.Close,
             portfolio_value := s.cash + s.stock_quantity * b.Close }]
        last_action := some Action.Sell
        total_trades := s.total_trades + 1
        successful_trades :=
          if b.Close > s.last_buy_price then s.successful_trades + 1
          else s.successful_trades } := by
    unfold tradeStep
    rw [if_neg hnb]
    exact if_pos ⟨hs, hq, hl⟩
  simp only [stepBar]
  rw [ht]
  exact ⟨rfl, rfl, rfl, rfl, rfl, rfl⟩

set_option maxRecDepth 8000 in
/-- C8 witness: Example 2 of the specification — after a buy of 10 shares
at 100, a sell bar at price 110 yields cash 1100, quantity 0, one total
trade and one successful trade (110 > 100). -/
theorem claim_C8_witness :
    (stepBar 1 barSell longState).cash = 1100 ∧
    (stepBar 1 barSell longState).stock_quantity = 0 ∧
    (stepBar 1 barSell longState).total_trades = 1 ∧
    (stepBar 1 barSell longState).successful_trades = 1 := by
  have h := claim_C8 1 barSell longState (by with_unfolding_all decide)
    (by with_unfolding_all decide) (by with_unfolding_all decide)
  refine ⟨?_, h.2.1, ?_, ?_⟩
  · rw [h.1]
    with_unfolding_all decide
  · rw [h.2.2.2.2.1]
    with_unfolding_all decide
  · rw [h.2.2.2.2.2]
    with_unfolding_all decide

/-! ## Portfolio invariant: cash and quantity never go negative -/

lemma tradeStep_not_traded (i : ℕ) (b : Bar) (s : SimState)
    (hnb : ¬(Buy_Condition b = true ∧ 0 < s.cash ∧ s.last_action ≠ some Action.Buy))
    (hns : ¬(Sell_Condition b = true ∧ 0 < s.stock_quantity ∧
      s.last_action ≠ some Action.Sell)) :
    tradeStep i b s = s := by
  unfold tradeStep
  rw [if_neg hnb]
  exact if_neg hns

lemma tradeStep_nonneg (i : ℕ) (b : Bar) (s : SimState) (hb : 0 < b.Close)
    (hc : 0 ≤ s.cash) (hq : 0 ≤ s.stock_quantity) :
    0 ≤ (tradeStep i b s).cash ∧ 0 ≤ (tradeStep i b s).stock_quantity := by
  by_cases h1 : Buy_Condition b = true ∧ 0 < s.cash ∧ s.last_action ≠ some Action.Buy
  · have ht : tradeStep i b s = { s with
        cash := s.cash - (⌊s.cash / b.Close⌋ : ℚ) * b.Close
        stock_quantity := (⌊s.cash / b.Close⌋ : ℚ)
        transactions := s.transactions ++
          [{ date := i, action := Action.Buy, price := b.Close,
             quantity := (⌊s.cash / b.Close⌋ : ℚ),
             cash := s.cash - (⌊s.cash / b.Close⌋ : ℚ) * b.Close,
             portfolio_value := s.cash - (⌊s.cash / b.Close⌋ : ℚ) * b.Close +
               (⌊s.cash / b.Close⌋ : ℚ) * b.Close }]
        last_action := some Action.Buy
        last_buy_price := b.Close } := by
      unfold tradeStep
      exact if_pos h1
    rw [ht]
    constructor
    · show 0 ≤ s.cash - (⌊s.cash / b.Close⌋ : ℚ) * b.Close
      have hfl : (⌊s.cash / b.Close⌋ : ℚ) ≤ s.cash / b.Close := Int.floor_le _
      have hmul := mul_le_mul_of_nonneg_right hfl (le_of_lt hb)
      rw [div_mul_cancel₀ _ (ne_of_gt hb)] at hmul
      exact sub_nonneg.mpr hmul
    · show 0 ≤ (⌊s.cash / b.Close⌋ : ℚ)
      have hdiv : (0:ℚ) ≤ s.cash / b.Close := div_nonneg hc (le_of_lt hb)
      exact_mod_cast Int.floor_nonneg.mpr hdiv
  · by_cases h2 : Sell_Condition b = true ∧ 0 < s.stock_quantity ∧
        s.last_action ≠ some Action.Sell
    · have ht : tradeStep i b s = { s with
          cash := s.cash + s.stock_quantity * b.Close
          stock_quantity := (0:ℚ)
          transactions := s.transactions ++
            [{ date := i, action := Action.Sell, price := b.Close, quantity := 0,
               cash := s.cash + s.stock_quantity * b.Close,
               portfolio_value := s.cash + s.stock_quantity * b.Close }]
          last_action := some Action.Sell
          total_trades := s.total_trades + 1
          successful_trades :=
            if b.Close > s.last_buy_price then s.successful_trades + 1
            else s.successful_trades } := by
        unfold tradeStep
        rw [if_neg h1]
        exact if_pos h2
      rw [ht]
      constructor
      · show 0 ≤ s.cash + s.stock_quantity * b.Close
        exact add_nonneg hc (mul_nonneg hq (le_of_lt hb))
      · exact le_refl 0
    · rw [tradeStep_not_traded i b s h1 h2]
      exact ⟨hc, hq⟩

lemma simLoop_nonneg : ∀ (l : List (ℕ × Bar)) (s : SimState),
    (∀ p ∈ l, 0 < p.2.Close) → 0 ≤ s.cash → 0 ≤ s.stock_quantity →
    0 ≤ (simLoop s l).cash ∧ 0 ≤ (simLoop s l).stock_quantity
  | [], _, _, hc, hq => ⟨hc, hq⟩
  | p :: rest, s, hb, hc, hq => by
    have hstep := tradeStep_nonneg p.1 p.2 s (hb p (List.mem_cons_self p rest)) hc hq
    exact simLoop_nonneg rest (stepBar p.1 p.2 s)
      (fun q hq2 => hb q (List.mem_cons_of_mem p hq2)) hstep.1 hstep.2

/-- C4: for every bar series with positive close prices, every non-negative
initial cash, every start position `k` and every bar count `n`, the loop
state after processing the first `n` bars of the simulation has
non-negative cash and non-negative share quantity. -/
theorem claim_C4 (bars : List Bar) (initial_cash : ℚ) (k n : ℕ)
    (hpos : ∀ b ∈ bars, 0 < b.Close) (h0 : 0 ≤ initial_cash) :
    0 ≤ (simLoop (initState initial_cash) ((List.enumFrom k (bars.drop k)).take n)).cash ∧
    0 ≤ (simLoop (initState initial_cash)
          ((List.enumFrom k (bars.drop k)).take n)).stock_quantity := by
  apply simLoop_nonneg
  · intro p hp
    exact hpos p.2 (List.mem_of_mem_drop (List.snd_mem_of_mem_enumFrom (List.mem_of_mem_take hp)))
  · exact h0
  · exact le_refl 0

/-- C4 witness: the invariant instantiated on the concrete two-bar
buy-then-sell series with initial cash 1000, after both bars. -/
theorem claim_C4_witness :
    0 ≤ (simLoop (initState 1000) ((List.enumFrom 0 (barsBuySell.drop 0)).take 2)).cash ∧
    0 ≤ (simLoop (initState 1000)
          ((List.enumFrom 0 (barsBuySell.drop 0)).take 2)).stock_quantity :=
  claim_C4 barsBuySell 1000 0 2 (by with_unfolding_all decide) (by with_unfolding_all decide)

/-! ## Journal shape: alternation and the leading Buy -/

lemma noRepeatedSide_append : ∀ (l : List Transaction) (t : Transaction),
    noRepeatedSide l = true →
    (∀ u, l.getLast? = some u → u.action ≠ t.action) →
    noRepeatedSide (l ++ [t]) = true
  | [], _, _, _ => rfl
  | [a], t, _, hlast => by
    have ha : a.action ≠ t.action := hlast a rfl
    simp [noRepeatedSide, ha]
  | a :: b :: rest, t, h, hlast => by
    rw [noRepeatedSide, Bool.and_eq_true] at h
    have htail := noRepeatedSide_append (b :: rest) t h.2
      (fun u hu => hlast u (by rw [List.getLast?_cons_cons]; exact hu))
    show noRepeatedSide (a :: b :: (rest ++ [t])) = true
    rw [noRepeatedSide, Bool.and_eq_true]
    exact ⟨h.1, htail⟩

lemma tradeStep_journal (i : ℕ) (b : Bar) (s : SimState)
    (h1 : noRepeatedSide s.transactions = true)
    (h2 : ∀ u, s.transactions.getLast? = some u → s.last_action = some u.action) :
    noRepeatedSide (tradeStep i b s).transactions = true ∧
    ∀ u, (tradeStep i b s).transactions.getLast? = some u →
      (tradeStep i b s).last_action = some u.action := by
  by_cases hb : Buy_Condition b = true ∧ 0 < s.cash ∧ s.last_action ≠ some Action.Buy
  · have ht : tradeStep i b s = { s with
        cash := s.cash - (⌊s.cash / b.Close⌋ : ℚ) * b.Close
        stock_quantity := (⌊s.cash / b.Close⌋ : ℚ)
        transactions := s.transactions ++
          [{ date := i, action := Action.Buy, price := b.Close,
             quantity := (⌊s.cash / b.Close⌋ : ℚ),
             cash := s.cash - (⌊s.cash / b.Close⌋ : ℚ) * b.Close,
             portfolio_value := s.cash - (⌊s.cash / b.Close⌋ : ℚ) * b.Close +
               (⌊s.cash / b.Close⌋ : ℚ) * b.Close }]
        last_action := some Action.Buy
        last_buy_price := b.Close } := by
      unfold tradeStep
      exact if_pos hb
    rw [ht]
    constructor
    · apply noRepeatedSide_append _ _ h1
      intro u hu heq
      exact hb.2.2 (by rw [h2 u hu, heq])
    · intro u hu
      rw [List.getLast?_concat] at hu
      cases hu
      rfl
  · by_cases hs : Sell_Condition b = true ∧ 0 < s.stock_quantity ∧
        s.last_action ≠ some Action.Sell
    · have ht : tradeStep i b s = { s with
          cash := s.cash + s.stock_quantity * b.Close
          stock_quantity := (0:ℚ)
          transactions := s.transactions ++
            [{ date := i, action := Action.Sell, price := b.Close, quantity := 0,
               cash := s.cash + s.stock_quantity * b.Close,
               portfolio_value := s.cash + s.stock_quantity * b.Close }]
          last_action := some Action.Sell
          total_trades := s.total_trades + 1
          successful_trades :=
            if b.Close > s.last_buy_price then s.successful_trades + 1
            else s.successful_trades } := by
        unfold tradeStep
        rw [if_neg hb]
        exact if_pos hs
      rw [ht]
      constructor
      · apply noRepeatedSide_append _ _ h1
        intro u hu heq
        exact hs.2.2 (by rw [h2 u hu, heq])
      · intro u hu
        rw [List.getLast?_concat] at hu
        cases hu
        rfl
    · rw [tradeStep_not_traded i b s hb hs]
      exact ⟨h1, h2⟩

lemma simLoop_journal : ∀ (l : List (ℕ × Bar)) (s : SimState),
    noRepeatedSide s.transactions = true →
    (∀ u, s.transactions.getLast? = some u → s.last_action = some u.action) →
    noRepeatedSide (simLoop s l).transactions = true
  | [], _, h1, _ => h1
  | p :: rest, s, h1, h2 => by
    have h := tradeStep_journal p.1 p.2 s h1 h2
    exact simLoop_journal rest (stepBar p.1 p.2 s) h.1 h.2

/-- C6: in the journal of any successful run no two adjacent transactions
carry the same action: Buys and Sells strictly alternate, because the
`last_action` guard blocks re-entering the side most recently taken. -/
theorem claim_C6 (bars : List Bar) (initial_cash : ℚ) (r : RunResult)
    (h : run_simulation bars initial_cash = some r) :
    noRepeatedSide r.transactions = true := by
  unfold run_simulation at h
  cases hk : start_index bars with
  | none =>
    rw [hk] at h
    exact Option.noConfusion h
  | some k =>
    rw [hk] at h
    have hrun := simLoop_journal (List.enumFrom k (bars.drop k)) (initState initial_cash)
      rfl (fun u hu => Option.noConfusion hu)
    have hr : r.transactions =
        (simLoop (initState initial_cash) (List.enumFrom k (bars.drop k))).transactions := by
      cases h
      rfl
    rw [hr]
    exact hrun

set_option maxRecDepth 8000 in
/-- C6 witness: the alternation predicate holds on the two-transaction
journal produced by the concrete buy-then-sell run. -/
theorem claim_C6_witness : noRepeatedSide resultBuySell.transactions = true :=
  claim_C6 barsBuySell 1000 resultBuySell (by with_unfolding_all decide)

lemma tradeStep_firstBuy (i : ℕ) (b : Bar) (s : SimState)
    (h1 : s.transactions = [] → s.stock_quantity = 0)
    (h2 : ∀ u, s.transactions.head? = some u → u.action = Action.Buy) :
    ((tradeStep i b s).transactions = [] → (tradeStep i b s).stock_quantity = 0) ∧
    ∀ u, (tradeStep i b s).transactions.head? = some u → u.action = Action.Buy := by
  by_cases hb : Buy_Condition b = true ∧ 0 < s.cash ∧ s.last_action ≠ some Action.Buy
  · have ht : tradeStep i b s = { s with
        cash := s.cash - (⌊s.cash / b.Close⌋ : ℚ) * b.Close
        stock_quantity := (⌊s.cash / b.Close⌋ : ℚ)
        transactions := s.transactions ++
          [{ date := i, action := Action.Buy, price := b.Close,
             quantity := (⌊s.cash / b.Close⌋ : ℚ),
             cash := s.cash - (⌊s.cash / b.Close⌋ : ℚ) * b.Close,
             portfolio_value := s.cash - (⌊s.cash / b.Close⌋ : ℚ) * b.Close +
               (⌊s.cash / b.Close⌋ : ℚ) * b.Close }]
        last_action := some Action.Buy
        last_buy_price := b.Close } := by
      unfold tradeStep
      exact if_pos hb
    rw [ht]
    constructor
    · intro hemp
      exact absurd hemp (by simp)
    · intro u hu
      cases hl : s.transactions with
      | nil =>
        rw [hl] at hu
        cases hu
        rfl
      | cons a rest =>
        rw [hl] at hu
        cases hu
        exact h2 _ (by rw [hl]; rfl)
  · by_cases hsell : Sell_Condition b = true ∧ 0 < s.stock_quantity ∧
        s.last_action ≠ some Action.Sell
    · have hne : s.transactions ≠ [] := by
        intro hemp
        rw [h1 hemp] at hsell
        exact lt_irrefl 0 hsell.2.1
      have ht : tradeStep i b s = { s with
          cash := s.cash + s.stock_quantity * b.Close
          stock_quantity := (0:ℚ)
          transactions := s.transactions ++
            [{ date := i, action := Action.Sell, price := b.Close, quantity := 0,
               cash := s.cash + s.stock_quantity * b.Close,
               portfolio_value := s.cash + s.stock_quantity * b.Close }]
          last_action := some Action.Sell
          total_trades := s.total_trades + 1
          successful_trades :=
            if b.Close > s.last_buy_price then s.successful_trades + 1
            else s.successful_trades } := by
        unfold tradeStep
        rw [if_neg hb]
        exact if_pos hsell
      rw [ht]
      constructor
      · intro hemp
        exact absurd hemp (by simp)
      · intro u hu
        cases hl : s.transactions with
        | nil => exact absurd hl hne
        | cons a rest =>
          rw [hl] at hu
          cases hu
          exact h2 _ (by rw [hl]; rfl)
    · rw [tradeStep_not_traded i b s hb hsell]
      exact ⟨h1, h2⟩

lemma simLoop_firstBuy : ∀ (l : List (ℕ × Bar)) (s : SimState),
    (s.transactions = [] → s.stock_quantity = 0) →
    (∀ u, s.transactions.head? = some u → u.action = Action.Buy) →
    ∀ u, (simLoop s l).transactions.head? = some u → u.action = Action.Buy
  | [], _, _, h2 => h2
  | p :: rest, s, h1, h2 => by
    have h := tradeStep_firstBuy p.1 p.2 s h1 h2
    exact simLoop_firstBuy rest (stepBar p.1 p.2 s) h.1 h.2

/-- C10: in any successful run, if the journal is non-empty its first
transaction is a Buy: the held quantity starts at 0, a Sell requires a
positive held quantity, and the quantity only becomes positive through a
prior recorded Buy. -/
theorem claim_C10 (bars : List Bar) (initial_cash : ℚ) (r : RunResult)
    (h : run_simulation bars initial_cash = some r) :
    ∀ u, r.transactions.head? = some u → u.action = Action.Buy := by
  unfold run_simulation at h
  cases hk : start_index bars with
  | none =>
    rw [hk] at h
    exact Option.noConfusion h
  | some k =>
    rw [hk] at h
    have hrun := simLoop_firstBuy (List.enumFrom k (bars.drop k)) (initState initial_cash)
      (fun _ => rfl) (fun u hu => Option.noConfusion hu)
    have hr : r.transactions =
        (simLoop (initState initial_cash) (List.enumFrom k (bars.drop k))).transactions := by
      cases h
      rfl
    rw [hr]
    exact hrun

set_option maxRecDepth 8000 in
/-- C10 witness: on the concrete buy-then-sell run the first journal entry
is a Buy. -/
theorem claim_C10_witness :
    (resultBuySell.transactions.getD 0 default).action = Action.Buy :=
  claim_C10 barsBuySell 1000 resultBuySell (by with_unfolding_all decide) _ rfl

/-! ## Simulation driver: start-index lookup -/

lemma first_valid_spec (f : Bar → Option ℚ) : ∀ (l : List Bar) (i : ℕ),
    first_valid f l = some i →
    ∃ h : i < l.length, (f (l.get ⟨i, h⟩)).isSome = true ∧
      ∀ j (hj : j < l.length), j < i → (f (l.get ⟨j, hj⟩)).isSome = false
  | [], i, h => by simp [first_valid] at h
  | b :: rest, i, h => by
    by_cases hb : (f b).isSome = true
    · rw [first_valid, if_pos hb] at h
      injection h with h0
      subst h0
      exact ⟨Nat.succ_pos _, hb, fun j hj hji => absurd hji (Nat.not_lt_zero j)⟩
    · rw [first_valid, if_neg hb] at h
      cases hr : first_valid f rest with
      | none =>
        rw [hr] at h
        exact Option.noConfusion h
      | some i0 =>
        rw [hr] at h
        injection h with h0
        subst h0
        obtain ⟨hlen, hsome, hmin⟩ := first_valid_spec f rest i0 hr
        refine ⟨Nat.succ_lt_succ hlen, hsome, ?_⟩
        intro j hj hji
        cases j with
        | zero => simpa using hb
        | succ j0 => exact hmin j0 (Nat.lt_of_succ_lt_succ hj) (Nat.lt_of_succ_lt_succ hji)

lemma first_valid_none (f : Bar → Option ℚ) : ∀ (l : List Bar),
    (∀ b ∈ l, f b = none) → first_valid f l = none
  | [], _ => rfl
  | b :: rest, h => by
    rw [first_valid, if_neg (by simp [h b (List.mem_cons_self b rest)]),
      first_valid_none f rest (fun x hx => h x (List.mem_cons_of_mem b hx))]
    rfl

/-- C3 (amended): on a series in which the minus-DI column has no valid
entry at all — as with fewer bars than the indicator warm-up window, where
every indicator column is entirely NaN — the start-index lookup fails and
the engine errors out (modelled as `none`) instead of returning an empty
`RunResult`; the exception is handled by the orchestration layer, not by
the engine. -/
theorem claim_C3 (bars : List Bar) (initial_cash : ℚ)
    (h : ∀ b ∈ bars, b.MINUS_DI = none) :
    run_simulation bars initial_cash = none := by
  unfold run_simulation start_index
  rw [first_valid_none Bar.MINUS_DI bars h]

/-- C3 witness: the amended behaviour on the concrete all-NaN series. -/
theorem claim_C3_witness : run_simulation barsAllNaN 50 = none :=
  claim_C3 barsAllNaN 50 (by with_unfolding_all decide)

/-- C2 (amended): the driver's start position is computed from the
directional-indicator columns only: assuming each DI column stays defined
from its first valid position onward (the warm-up-prefix shape), the start
position is the least bar position at which both plus-DI and minus-DI are
defined.  The MACD warm-up is not consulted, so the MACD and MACD-signal
columns may still be undefined at or after the start position. -/
theorem claim_C2 (bars : List Bar) (k : ℕ)
    (hmono : ∀ i j : Fin bars.length, (i : ℕ) ≤ (j : ℕ) →
      ((bars.get i).MINUS_DI.isSome = true → (bars.get j).MINUS_DI.isSome = true) ∧
      ((bars.get i).PLUS_DI.isSome = true → (bars.get j).PLUS_DI.isSome = true))
    (hk : start_index bars = some k) :
    ∃ hlen : k < bars.length,
      ((bars.get ⟨k, hlen⟩).MINUS_DI.isSome = true ∧
        (bars.get ⟨k, hlen⟩).PLUS_DI.isSome = true) ∧
      ∀ m : Fin bars.length, (m : ℕ) < k →
        ¬((bars.get m).MINUS_DI.isSome = true ∧ (bars.get m).PLUS_DI.isSome = true) := by
  unfold start_index at hk
  cases hmi : first_valid Bar.MINUS_DI bars with
  | none =>
    rw [hmi] at hk
    exact Option.noConfusion hk
  | some i =>
    cases hpi : first_valid Bar.PLUS_DI bars with
    | none =>
      rw [hmi, hpi] at hk
      exact Option.noConfusion hk
    | some j =>
      rw [hmi, hpi] at hk
      injection hk with hk0
      subst hk0
      obtain ⟨hilen, hisome, himin⟩ := first_valid_spec Bar.MINUS_DI bars i hmi
      obtain ⟨hjlen, hjsome, hjmin⟩ := first_valid_spec Bar.PLUS_DI bars j hpi
      have hklen : max i j < bars.length := max_lt hilen hjlen
      refine ⟨hklen, ⟨?_, ?_⟩, ?_⟩
      · exact (hmono ⟨i, hilen⟩ ⟨max i j, hklen⟩ (le_max_left i j)).1 hisome
      · exact (hmono ⟨j, hjlen⟩ ⟨max i j, hklen⟩ (le_max_right i j)).2 hjsome
      · intro m hm hboth
        rcases lt_max_iff.mp hm with hlt | hlt
        · have hfalse : (bars.get m).MINUS_DI.isSome = false := himin m.1 m.2 hlt
          rw [hboth.1] at hfalse
          exact Bool.noConfusion hfalse
        · have hfalse : (bars.get m).PLUS_DI.isSome = false := hjmin m.1 m.2 hlt
          rw [hboth.2] at hfalse
          exact Bool.noConfusion hfalse

/-- C2 witness: on the staggered-DI series the start position is 1, both
directional indicators are defined at bar 1, and bar 0 does not have both
defined. -/
theorem claim_C2_witness :
    ∃ hlen : 1 < barsDIStagger.length,
      ((barsDIStagger.get ⟨1, hlen⟩).MINUS_DI.isSome = true ∧
        (barsDIStagger.get ⟨1, hlen⟩).PLUS_DI.isSome = true) ∧
      ∀ m : Fin barsDIStagger.length, (m : ℕ) < 1 →
        ¬((barsDIStagger.get m).MINUS_DI.isSome = true ∧
          (barsDIStagger.get m).PLUS_DI.isSome = true) :=
  claim_C2 barsDIStagger 1 (by with_unfolding_all decide) (by with_unfolding_all decide)

end SignalTest
